import Mathlib

/-!
# Verification of the memory-firewall agent core

Shallow embedding of the constraint-parsing and action-evaluation engine
(`src/agent/policy.py` and `src/agent/orchestrator.py`).  Text is modelled as
`List Char`; the Python `re` patterns used by the extractors are embedded as
explicit backtracking matchers that reproduce `re.search` semantics (leftmost
match position, prioritized alternatives at that position); Python `float`
amounts are modelled as exact rationals `ℚ`.  External collaborators (the
graph store and the memory service) are side-effect-only in the source: the
embedded `evaluate_request` keeps the list of recorded violation pairs in the
returned decision, and the freshly generated identifiers (`uuid4`) are taken
as explicit parameters.
-/

set_option autoImplicit false

namespace MemoryFirewall

/-! ## Characters and Python-style normalization (`_norm` / `_normalize`) -/

/-- Python `\s` on the ASCII range: space, tab, newline, carriage return,
vertical tab, form feed. -/
def isPySpace (c : Char) : Bool :=
  c.toNat == 32 || c.toNat == 9 || c.toNat == 10 ||
  c.toNat == 13 || c.toNat == 11 || c.toNat == 12

/-- Python `\w` on the ASCII range: letters, digits, underscore. -/
def isWordCh (c : Char) : Bool :=
  (97 ≤ c.toNat && c.toNat ≤ 122) || (65 ≤ c.toNat && c.toNat ≤ 90) ||
  (48 ≤ c.toNat && c.toNat ≤ 57) || c.toNat == 95

def isDigitCh (c : Char) : Bool := 48 ≤ c.toNat && c.toNat ≤ 57

def digitVal (c : Char) : Nat := c.toNat - 48

/-- ASCII lower-casing, as `str.lower` acts on the ASCII inputs in scope. -/
def lowerCh (c : Char) : Char :=
  if 65 ≤ c.toNat && c.toNat ≤ 90 then Char.ofNat (c.toNat + 32) else c

/-- `str.strip()` from the left. -/
def stripLeft (s : List Char) : List Char := s.dropWhile isPySpace

/-- `str.strip()` on both ends. -/
def stripWs (s : List Char) : List Char :=
  ((stripLeft s).reverse.dropWhile isPySpace).reverse

/-- Collapse every whitespace run to a single space
(`re.sub(r"\s+", " ", ...)`); the flag says whether the previous character
was part of a whitespace run. -/
def collapseWsAux : Bool → List Char → List Char
  | _, [] => []
  | prevSp, c :: rest =>
    if isPySpace c then
      if prevSp then collapseWsAux true rest
      else ' ' :: collapseWsAux true rest
    else c :: collapseWsAux false rest

/-- `_norm` of the orchestrator and `_normalize` of the policy module:
`re.sub(r"\s+", " ", (s or "").strip().lower())`. -/
def normalize (s : List Char) : List Char :=
  collapseWsAux false (stripWs (s.map lowerCh))

/-! ## Substring containment (Python `w in t`) -/

def listStartsWith : List Char → List Char → Bool
  | _, [] => true
  | [], _ :: _ => false
  | a :: as1, b :: bs => a == b && listStartsWith as1 bs

/-- `w` occurs as a contiguous substring of `t` (Python `w in t`). -/
def strContains (w : List Char) : List Char → Bool
  | [] => listStartsWith [] w
  | c :: rest => listStartsWith (c :: rest) w || strContains w rest

/-- `t` contains the literal `w` (Python `w in t`). -/
def hasSub (t : List Char) (w : String) : Bool := strContains w.toList t

/-- Python `any(w in t for w in ws)`. -/
def hasAnyWord (t : List Char) (ws : List String) : Bool :=
  ws.any (fun w => hasSub t w)

/-! ## Backtracking regex matchers

Each Python pattern used by the source is embedded as a matcher of type
`List Char → List (α × List Char)` returning every parse at the current
position in the engine's priority order (greedy repetition: longest first;
alternation: left first).  `re.search` is the first position, scanning left
to right, whose priority list is non-empty, taking that list's head. -/

/-- One decimal digit (`\d`). -/
def pDigit (s : List Char) : List (Nat × List Char) :=
  match s with
  | c :: rest => if isDigitCh c then [(digitVal c, rest)] else []
  | [] => []

def pbind {α β : Type} (xs : List (α × List Char))
    (f : α → List Char → List (β × List Char)) : List (β × List Char) :=
  xs.flatMap (fun p => f p.1 p.2)

/-- `(\d{1,2})`, greedy: the two-digit parse is tried before one digit. -/
def pDigits12 (s : List Char) : List (Nat × List Char) :=
  pbind (pDigit s) (fun d1 r1 =>
    ((pDigit r1).map (fun p => (10 * d1 + p.1, p.2))) ++ [(d1, r1)])

/-- `\s*`, greedy: longest consumption first. -/
def pSpacesStar : List Char → List (Unit × List Char)
  | [] => [((), [])]
  | c :: rest =>
    if isPySpace c then (pSpacesStar rest) ++ [((), c :: rest)]
    else [((), c :: rest)]

/-- `\s+`, greedy. -/
def pSpacesPlus (s : List Char) : List (Unit × List Char) :=
  match s with
  | c :: rest => if isPySpace c then pSpacesStar rest else []
  | [] => []

/-- A character class `[..]*`, greedy, returning the consumed characters. -/
def pStarCls (f : Char → Bool) : List Char → List (List Char × List Char)
  | [] => [([], [])]
  | c :: rest =>
    if f c then
      ((pStarCls f rest).map (fun p => (c :: p.1, p.2))) ++ [([], c :: rest)]
    else [([], c :: rest)]

/-- A character class `[..]+`, greedy. -/
def pPlusCls (f : Char → Bool) (s : List Char) : List (List Char × List Char) :=
  match s with
  | c :: rest =>
    if f c then (pStarCls f rest).map (fun p => (c :: p.1, p.2)) else []
  | [] => []

/-- `\.?`, greedy: with the dot first. -/
def pOptDot (s : List Char) : List (Unit × List Char) :=
  match s with
  | '.' :: rest => [((), rest), ((), '.' :: rest)]
  | _ => [((), s)]

/-- True when the head of `s` is a word character (end of input counts as
non-word). -/
def nextIsWord (s : List Char) : Bool :=
  match s with
  | [] => false
  | c :: _ => isWordCh c

/-- `\b` between a known previous character (word or not, `none` = start of
input) and the rest of the input. -/
def boundary (prevWord : Bool) (s : List Char) : Bool :=
  prevWord != nextIsWord s

def isWordOpt : Option Char → Bool
  | none => false
  | some c => isWordCh c

/-- Match a literal string, returning the rest on success. -/
def pLit : List Char → List Char → Option (List Char)
  | [], s => some s
  | l :: ls, c :: rest => if c == l then pLit ls rest else none
  | _ :: _, [] => none

/-- Tail of `a\.?m\.?|p\.?m\.?` after the `m`: the optional final dot, then
the pattern's trailing `\b` (which depends on whether the dot was taken). -/
def pMeridiemEnd (s : List Char) : List (Unit × List Char) :=
  (match s with
   | '.' :: r1 => if boundary false r1 then [((), r1)] else []
   | _ => []) ++
  (if boundary true s then [((), s)] else [])

/-- One branch `a\.?m\.?` (or `p\.?m\.?`) followed by the trailing `\b`;
produces `false` for am, `true` for pm. -/
def pMeridiemBranch (c0 : Char) (isPm : Bool) (s : List Char) :
    List (Bool × List Char) :=
  match s with
  | c :: rest =>
    if c == c0 then
      pbind (pOptDot rest) (fun _ r1 =>
        match r1 with
        | 'm' :: r2 => (pMeridiemEnd r2).map (fun p => (isPm, p.2))
        | _ => [])
    else []
  | [] => []

/-- `(a\.?m\.?|p\.?m\.?)\b`: alternation tries `am` first. -/
def pMeridiemFull (s : List Char) : List (Bool × List Char) :=
  pMeridiemBranch 'a' false s ++ pMeridiemBranch 'p' true s

/-- Generic `re.search`: scan positions left to right (tracking the previous
character for `\b`), return the head of the first non-empty priority list. -/
def searchP {α : Type} (m : Option Char → List Char → List (α × List Char)) :
    Option Char → List Char → Option α
  | prev, s =>
    match (m prev s).head? with
    | some r => some r.1
    | none =>
      match s with
      | [] => none
      | c :: rest => searchP m (some c) rest

/-! ## The concrete patterns of the source -/

/-- `(?::(\d{2}))?`, greedy (the captured minutes are never used by the
source, so no value is returned). -/
def pOptMinutes (s : List Char) : List (Unit × List Char) :=
  (match s with
   | ':' :: r1 =>
     pbind (pDigit r1) (fun _ r2 => (pDigit r2).map (fun p => ((), p.2)))
   | _ => []) ++ [((), s)]

/-- Orchestrator pattern `\b(\d{1,2})(?::(\d{2}))?\s*(a\.?m\.?|p\.?m\.?)\b`
anchored at the current position; yields the hour digits and the pm flag. -/
def matchMeridiemAt (prev : Option Char) (s : List Char) :
    List ((Nat × Bool) × List Char) :=
  if boundary (isWordOpt prev) s then
    pbind (pDigits12 s) (fun h r1 =>
    pbind (pOptMinutes r1) (fun _ r2 =>
    pbind (pSpacesStar r2) (fun _ r3 =>
    (pMeridiemFull r3).map (fun p => ((h, p.1), p.2)))))
  else []

/-- Orchestrator pattern `\b(\d{1,2})(?::\d{2})\b`: note the minutes group is
not optional in the source regex. -/
def matchBareAt (prev : Option Char) (s : List Char) : List (Nat × List Char) :=
  if boundary (isWordOpt prev) s then
    pbind (pDigits12 s) (fun h r1 =>
      match r1 with
      | ':' :: r2 =>
        pbind (pDigit r2) (fun _ r3 =>
        pbind (pDigit r3) (fun _ r4 =>
        if boundary true r4 then [(h, r4)] else []))
      | _ => [])
  else []

/-- The two meridiem `if`s shared by both extractors:
`pm` and hour ≠ 12 adds 12; `am` and hour = 12 gives 0. -/
def meridiemAdjust (h : Nat) (isPm : Bool) : Nat :=
  if isPm && h != 12 then h + 12
  else if !isPm && h == 12 then 0
  else h

/-- Second block of the orchestrator extractor (`# 21:00 or 21` in the
source); the `0 <= h` half of the source's range check holds by `Nat`. -/
def orchBareFallback (t : List Char) : Option Nat :=
  match searchP matchBareAt none t with
  | some h => if h ≤ 23 then some h else none
  | none => none

/-- `_parse_time_to_hour` of `orchestrator.py` (the action-evaluation hour
extractor): meridiem pattern first; if it produced no in-range hour, the
bare `HH:MM` pattern. -/
def orch_parse_time_to_hour (text : List Char) : Option Nat :=
  let t := normalize text
  match searchP matchMeridiemAt none t with
  | some (h, isPm) =>
    let h2 := meridiemAdjust h isPm
    if h2 ≤ 23 then some h2 else orchBareFallback t
  | none => orchBareFallback t

def isDigitComma (c : Char) : Bool := isDigitCh c || c == ','

/-- `(?:\.[0-9]+)?`, greedy; returns the consumed characters. -/
def pOptFrac (s : List Char) : List (List Char × List Char) :=
  (match s with
   | '.' :: r1 => (pPlusCls isDigitCh r1).map (fun p => ('.' :: p.1, p.2))
   | _ => []) ++ [([], s)]

/-- Pattern `\$\s*([0-9][0-9,]*(?:\.[0-9]+)?)` anchored at the current
position; yields the captured group. -/
def matchAmountAt (s : List Char) : List (List Char × List Char) :=
  match s with
  | '$' :: r0 =>
    pbind (pSpacesStar r0) (fun _ r1 =>
      match r1 with
      | c :: r2 =>
        if isDigitCh c then
          pbind (pStarCls isDigitComma r2) (fun mid r3 =>
          pbind (pOptFrac r3) (fun fr r4 =>
          [((c :: (mid ++ fr)), r4)]))
        else []
      | [] => [])
  | _ => []

def digitsToNat (ds : List Char) : Nat :=
  ds.foldl (fun n c => 10 * n + digitVal c) 0

/-- `float(group.replace(",", ""))` on a matched decimal token: the exact
rational `ip.fp = (ip * 10 ^ k + fp) / 10 ^ k` (built with `mkRat` so that it
evaluates by kernel reduction). -/
def decTokenToRat (s : List Char) : ℚ :=
  let s1 := s.filter (fun c => c != ',')
  let ip := s1.takeWhile (fun c => c != '.')
  let fp := (s1.dropWhile (fun c => c != '.')).drop 1
  mkRat (digitsToNat ip * 10 ^ fp.length + digitsToNat fp) (10 ^ fp.length)

/-- `re.search` for the `$`-amount pattern (it has no `\b`, so no previous
character is needed). -/
def searchAmount : List Char → Option (List Char)
  | [] => none
  | c :: rest =>
    match (matchAmountAt (c :: rest)).head? with
    | some r => some r.1
    | none => searchAmount rest

/-- `_parse_amount` of `orchestrator.py`: only the `$`-prefixed token. -/
def orch_parse_amount (text : List Char) : Option ℚ :=
  (searchAmount (normalize text)).map decTokenToRat

/-- Policy pattern `\bafter\s+(\d{1,2})\s*(a\.?m\.?|p\.?m\.?)\b` anchored at
the current position. -/
def matchAfterMeridiemAt (prev : Option Char) (s : List Char) :
    List ((Nat × Bool) × List Char) :=
  if boundary (isWordOpt prev) s then
    match pLit "after".toList s with
    | some r0 =>
      pbind (pSpacesPlus r0) (fun _ r1 =>
      pbind (pDigits12 r1) (fun h r2 =>
      pbind (pSpacesStar r2) (fun _ r3 =>
      (pMeridiemFull r3).map (fun p => ((h, p.1), p.2)))))
    | none => []
  else []

/-- Policy pattern `\bafter\s+(\d{1,2})(?::\d{2})?\b` (optional minutes;
both alternatives end in a digit, a word character, for the trailing `\b`). -/
def matchAfterBareAt (prev : Option Char) (s : List Char) :
    List (Nat × List Char) :=
  if boundary (isWordOpt prev) s then
    match pLit "after".toList s with
    | some r0 =>
      pbind (pSpacesPlus r0) (fun _ r1 =>
      pbind (pDigits12 r1) (fun h r2 =>
      pbind (pOptMinutes r2) (fun _ r3 =>
      if boundary true r3 then [(h, r3)] else [])))
    | none => []
  else []

/-- Second block of the policy extractor, with its range check. -/
def policyBareFallback (t : List Char) : Option Nat :=
  match searchP matchAfterBareAt none t with
  | some h => if h ≤ 23 then some h else none
  | none => none

/-- `_parse_time_to_hour` of `policy.py` (the constraint-declaration hour
extractor; both patterns require the `after` qualifier). -/
def policy_parse_time_to_hour (text : List Char) : Option Nat :=
  let t := normalize text
  match searchP matchAfterMeridiemAt none t with
  | some (h, isPm) =>
    let h2 := meridiemAdjust h isPm
    if h2 ≤ 23 then some h2 else policyBareFallback t
  | none => policyBareFallback t

/-- `(?:cap|max(?:imum)?)`: alternation tries `cap` first, and the inner
optional `imum` is greedy. -/
def pCapMax (s : List Char) : List (Unit × List Char) :=
  (match pLit "cap".toList s with
   | some r => [((), r)]
   | none => []) ++
  (match pLit "max".toList s with
   | some r =>
     (match pLit "imum".toList r with
      | some r2 => [((), r2)]
      | none => []) ++ [((), r)]
   | none => [])

/-- `[:=]?`, greedy. -/
def pOptColonEq (s : List Char) : List (Unit × List Char) :=
  (match s with
   | ':' :: r => [((), r)]
   | '=' :: r => [((), r)]
   | _ => []) ++ [((), s)]

/-- Policy fallback pattern
`\b(?:cap|max(?:imum)?)\s*[:=]?\s*([0-9][0-9,]*(?:\.[0-9]+)?)\b`; the
captured group may end in a comma, so the trailing `\b` looks at the last
captured character. -/
def matchMoneyFallbackAt (prev : Option Char) (s : List Char) :
    List (List Char × List Char) :=
  if boundary (isWordOpt prev) s then
    pbind (pCapMax s) (fun _ r0 =>
    pbind (pSpacesStar r0) (fun _ r1 =>
    pbind (pOptColonEq r1) (fun _ r2 =>
    pbind (pSpacesStar r2) (fun _ r3 =>
      match r3 with
      | c :: r4 =>
        if isDigitCh c then
          pbind (pStarCls isDigitComma r4) (fun mid r5 =>
          pbind (pOptFrac r5) (fun fr r6 =>
            let capt := c :: (mid ++ fr)
            if boundary (isWordCh (capt.getLastD '0')) r6 then [(capt, r6)]
            else []))
        else []
      | [] => []))))
  else []

/-- `_parse_money_amount` of `policy.py`: `$`-prefixed token preferred, then
the labeled `cap`/`max` fallback. -/
def policy_parse_money_amount (text : List Char) : Option ℚ :=
  let t := normalize text
  match searchAmount t with
  | some g => some (decTokenToRat g)
  | none =>
    match searchP matchMoneyFallbackAt none t with
    | some g => some (decTokenToRat g)
    | none => none

/-! ## Float formatting (`f"{x:.2f}"`, `f"{x:.0f}"`) -/

/-- Round-half-even of `q * scale` as an integer (the rounding used when a
float is formatted with a fixed number of decimals), computed directly on
the exact numerator and denominator: with `q = n/d` in lowest terms and
`d > 0`, the fractional part `r` of `n*scale/d` satisfies `r < 1/2` iff
`2*rem < d` for `rem = n*scale - floor*d`. -/
def halfEvenScaled (q : ℚ) (scale : ℤ) : ℤ :=
  let n := q.num * scale
  let d := (q.den : ℤ)
  let f := Int.fdiv n d
  let rem := n - f * d
  if 2 * rem < d then f
  else if d < 2 * rem then f + 1
  else if f % 2 = 0 then f else f + 1

def pad2 (n : ℕ) : String := if n < 10 then "0" ++ toString n else toString n

/-- Python `f"{x:.2f}"` on the rational model of a float. -/
def fmt2 (q : ℚ) : String :=
  let sgn := if q.num < 0 then "-" else ""
  let n := (halfEvenScaled (if q.num < 0 then -q else q) 100).toNat
  let ip := toString (n / 100)
  let fp := pad2 (n % 100)
  sgn ++ ip ++ "." ++ fp

/-- Python `f"{x:.0f}"` on the rational model of a float (the negative-zero
corner of CPython is not reproduced; no claim touches it). -/
def fmt0 (q : ℚ) : String :=
  let sgn := if q.num < 0 then "-" else ""
  sgn ++ toString (halfEvenScaled (if q.num < 0 then -q else q) 1).toNat

/-! ## Constants shared by the two modules -/

def NO_MEETINGS_AFTER_HOUR : String := "NO_MEETINGS_AFTER_HOUR"
def BUDGET_CAP : String := "BUDGET_CAP"
def NO_SHARING_WITH_EXTERNALS : String := "NO_SHARING_WITH_EXTERNALS"
def HARD : String := "HARD"
def SCHEDULE_MEETING : String := "SCHEDULE_MEETING"
def SHARE_DATA : String := "SHARE_DATA"
def SPEND_MONEY : String := "SPEND_MONEY"
def UNKNOWN : String := "UNKNOWN"

/-! ## `classify_action` and the keyword tests -/

def meetingWords : List String := ["meeting", "call", "schedule", "book", "invite"]
def shareVerbs : List String := ["share", "send", "export", "forward", "upload"]
def dataNouns : List String := ["dataset", "data", "file", "files", "csv"]
def spendWords : List String := ["buy", "purchase", "spend", "pay", "order"]

/-- `classify_action` of `orchestrator.py`. -/
def classify_action (user_request : String) : String :=
  let t := normalize user_request.toList
  if hasAnyWord t meetingWords then SCHEDULE_MEETING
  else if hasAnyWord t shareVerbs && hasAnyWord t dataNouns then SHARE_DATA
  else if hasAnyWord t spendWords || hasSub t "$" then SPEND_MONEY
  else UNKNOWN

def externalWords : List String :=
  ["contractor", "external", "third party", "3rd party", "vendor"]

/-- `_mentions_external_party` of `orchestrator.py`. -/
def mentions_external_party (text : String) : Bool :=
  hasAnyWord (normalize text.toList) externalWords

/-! ## Alternative suggestions -/

/-- `_alternatives_for_meeting`. -/
def alternativesForMeeting (max_hour : ℤ) : List String :=
  let safe_hour := min max_hour 20
  [s!"Schedule it at {safe_hour}:00 (8pm) instead of after {max_hour}:00.",
   "Schedule it tomorrow at 8:00pm.",
   "If it must be late, ask for an explicit exception/override first."]

/-- `_alternatives_for_sharing`. -/
def alternativesForSharing : List String :=
  ["Share a redacted/synthetic dataset instead of the full customer dataset.",
   "Share only aggregated metrics or schema, not raw records.",
   "Route the request through an approved internal channel or get written approval."]

/-- `_alternatives_for_budget`. -/
def alternativesForBudget (max_amount : ℚ) : List String :=
  let a := fmt0 max_amount
  [s!"Reduce scope to stay within the ${a} budget cap.",
   "Request approval to increase budget (one-time exception).",
   "Split the purchase into phases or use a lower-cost alternative."]

/-! ## Constraint records and the evaluator -/

/-- Typed view of a constraint's `params` mapping; an absent key is `none`.
`hour` is a Python int (`ℤ`), `max_amount` a float (modelled `ℚ`). -/
structure Params where
  hour : Option ℤ := none
  max_amount : Option ℚ := none
  banned_party : Option String := none
deriving DecidableEq

/-- A raw constraint record handed to `evaluate_request` (a dict in the
source): `none` models an absent key or a `None` value; a falsy `params`
(`None` or empty) is also `none`. -/
structure RawConstraint where
  constraint_id : Option String := none
  id : Option String := none
  constraintId : Option String := none
  type : Option String := none
  severity : Option String := none
  params : Option Params := none
  text : Option String := none
deriving DecidableEq

/-- The shape produced by the key-normalization loop of `evaluate_request`. -/
structure NormConstraint where
  id : Option String
  type : Option String
  severity : String
  params : Params
  text : String
deriving DecidableEq

/-- Python `a or b` over id candidates (`None` and `""` are falsy). -/
def orTruthy (a b : Option String) : Option String :=
  match a with
  | some s => if s = "" then b else some s
  | none => b

/-- One iteration of the constraint-normalization loop:
`c.get("constraint_id") or c.get("id") or c.get("constraintId")`,
`severity` defaulting to `HARD`, `params` to `{}`, `text` to `""`. -/
def normalizeConstraint (c : RawConstraint) : NormConstraint :=
  { id := orTruthy c.constraint_id (orTruthy c.id c.constraintId)
    type := c.type
    severity := c.severity.getD HARD
    params := c.params.getD {}
    text := c.text.getD "" }

/-- The decision record of `orchestrator.py`.  In the source the
`violations` field of a blocked decision echoes the graph query
`explain_violations` over the just-recorded violation edges; here it carries
the recorded `(constraint id, reason)` pairs themselves, the graph store
being an external collaborator.  `action_id` (`a-{uuid4().hex[:10]}` in the
source) is an explicit parameter. -/
structure Decision where
  ok : Bool
  action_id : String
  action_type : String
  message : String
  violations : List (Option String × String)
  alternatives : List String
deriving DecidableEq

def meetingReason (req_hour : ℕ) (max_hour : ℤ) : String :=
  s!"Requested meeting at {req_hour}:00 exceeds allowed end hour {max_hour}:00"

def sharingReason : String :=
  "Request involves external/contractor sharing, which is prohibited"

def budgetReason (amt cap : ℚ) : String :=
  let a := fmt2 amt
  let c := fmt2 cap
  s!"Requested spend ${a} exceeds budget cap ${c}"

/-- Check A of `evaluate_request` (meeting time): the loop's final
`(violations, alternatives)` accumulators, in traversal order. -/
def checkMeeting (req_hour : Option ℕ) :
    List NormConstraint → List (Option String × String) × List String
  | [] => ([], [])
  | c :: rest =>
    let acc := checkMeeting req_hour rest
    if c.type = some NO_MEETINGS_AFTER_HOUR then
      let max_hour : ℤ := c.params.hour.getD 21
      match req_hour with
      | some r =>
        if max_hour < (r : ℤ) then
          ((c.id, meetingReason r max_hour) :: acc.1,
           alternativesForMeeting max_hour ++ acc.2)
        else acc
      | none => acc
    else acc

/-- Check B of `evaluate_request` (external sharing): the loop body; the
`_mentions_external_party` guard sits outside the loop. -/
def checkSharing :
    List NormConstraint → List (Option String × String) × List String
  | [] => ([], [])
  | c :: rest =>
    let acc := checkSharing rest
    if c.type = some NO_SHARING_WITH_EXTERNALS then
      ((c.id, sharingReason) :: acc.1, alternativesForSharing ++ acc.2)
    else acc

/-- Check C of `evaluate_request` (budget cap). -/
def checkBudget (amt : Option ℚ) :
    List NormConstraint → List (Option String × String) × List String
  | [] => ([], [])
  | c :: rest =>
    let acc := checkBudget amt rest
    if c.type = some BUDGET_CAP then
      let cap : ℚ := c.params.max_amount.getD 0
      match amt with
      | some a =>
        if 0 < cap ∧ cap < a then
          ((c.id, budgetReason a cap) :: acc.1,
           alternativesForBudget cap ++ acc.2)
        else acc
      | none => acc
    else acc

/-- Checks A, B and C in sequence for the classified action type:
accumulated `(violations, alternatives)`. -/
def runChecks (user_request : String) (action_type : String)
    (ncs : List NormConstraint) :
    List (Option String × String) × List String :=
  let a :=
    if action_type = SCHEDULE_MEETING then
      checkMeeting (orch_parse_time_to_hour user_request.toList) ncs
    else ([], [])
  let b :=
    if action_type = SHARE_DATA then
      if mentions_external_party user_request then checkSharing ncs
      else ([], [])
    else ([], [])
  let c :=
    if action_type = SPEND_MONEY then
      checkBudget (orch_parse_amount user_request.toList) ncs
    else ([], [])
  (a.1 ++ b.1 ++ c.1, a.2 ++ b.2 ++ c.2)

/-- The alternative-dedup loop of `evaluate_request` (`seen` set, first
occurrence kept). -/
def dedupAux (seen : List String) : List String → List String
  | [] => []
  | a :: rest =>
    if seen.contains a then dedupAux seen rest
    else a :: dedupAux (a :: seen) rest

def dedupFirst (l : List String) : List String := dedupAux [] l

/-- `evaluate_request` of `orchestrator.py`.  The graph calls
(`record_action`, `record_violation`, `explain_violations`) are external
side effects (see `Decision`); the fresh action id is the `action_id`
parameter. -/
def evaluate_request (action_id : String) (user_request : String)
    (constraints : List RawConstraint) : Decision :=
  let action_type := classify_action user_request
  let ncs := constraints.map normalizeConstraint
  let vAlts := runChecks user_request action_type ncs
  if vAlts.1 = [] then
    { ok := true
      action_id := action_id
      action_type := action_type
      message := "Approved: no constraint violations detected."
      violations := []
      alternatives := [] }
  else
    { ok := false
      action_id := action_id
      action_type := action_type
      message := "Blocked: request violates one or more persistent constraints."
      violations := vAlts.1
      alternatives := (dedupFirst vAlts.2).take 5 }

/-! ## `parse_constraint` of `policy.py` -/

/-- The parsed-constraint record of `policy.py`. -/
structure ParsedConstraint where
  id : String
  type : String
  severity : String
  text : String
  params : Params
deriving DecidableEq

def unrecognizedMsg : String :=
  "Unrecognized constraint. Supported examples:\n" ++
  "1) No meetings after 9pm\n" ++
  "2) Budget cap $1000\n" ++
  "3) Never share datasets with external contractors"

def timeErrMsg : String :=
  "Could not parse the time. Example: \x27No meetings after 9pm\x27."

def amountErrMsg : String :=
  "Could not parse the amount. Example: \x27Budget cap $1000\x27."

/-- Trigger of rule family 1: (`meeting` or `call`) and `after`. -/
def meetingTrigger (t : List Char) : Bool :=
  (hasSub t "meeting" || hasSub t "call") && hasSub t "after"

/-- Trigger of rule family 2 (budget intent), with the source's redundant
`"budget cap"` disjunct. -/
def budgetTrigger (t : List Char) : Bool :=
  (hasSub t "budget" && hasSub t "cap") ||
  (hasSub t "max" && hasSub t "budget") ||
  hasSub t "budget cap" ||
  (hasSub t "spend" && hasSub t "max")

def shareWordsP (t : List Char) : Bool :=
  hasAnyWord t ["share", "send", "export", "give", "forward"]

def dataWordsP (t : List Char) : Bool :=
  hasAnyWord t ["dataset", "data", "file", "files"]

def extWordsP (t : List Char) : Bool :=
  hasAnyWord t ["contractor", "external", "third party", "3rd party", "vendor"]

/-- `deny_words` of the source: computed but never used by any rule. -/
def denyWordsP (t : List Char) : Bool :=
  hasAnyWord t ["never", "do not", "don\x27t", "no "]

/-- Trigger of rule family 3: a share verb, a data noun and an
external-party keyword together. -/
def sharingTrigger (t : List Char) : Bool :=
  shareWordsP t && dataWordsP t && extWordsP t

/-- `parse_constraint` of `policy.py`.  The fresh `uuid4().hex[:8]` is the
parameter `hex8`.  The result keeps the source's `(constraint, error)` pair
shape.  (`raw` is the stripped original; stripping before lower-casing
commutes with `_normalize`.) -/
def parse_constraint (hex8 : String) (user_text : String) :
    Option ParsedConstraint × Option String :=
  let raw := String.mk (stripWs user_text.toList)
  let t := normalize user_text.toList
  if meetingTrigger t then
    match policy_parse_time_to_hour t with
    | none => (none, some timeErrMsg)
    | some hour =>
      (some { id := "c-" ++ hex8
              type := NO_MEETINGS_AFTER_HOUR
              severity := HARD
              text := raw
              params := { hour := some (hour : ℤ) } }, none)
  else if budgetTrigger t then
    match policy_parse_money_amount t with
    | none => (none, some amountErrMsg)
    | some amt =>
      (some { id := "c-" ++ hex8
              type := BUDGET_CAP
              severity := HARD
              text := raw
              params := { max_amount := some amt } }, none)
  else if sharingTrigger t then
    let banned_party :=
      if hasSub t "contractor" then "contractor" else "external"
    (some { id := "c-" ++ hex8
            type := NO_SHARING_WITH_EXTERNALS
            severity := HARD
            text := raw
            params := { banned_party := some banned_party } }, none)
  else
    (none, some unrecognizedMsg)

/-! ## Spec-side predicates and characterization lemmas -/

/-- The violation condition of check A for one constraint, as the spec words
it: a `NO_MEETINGS_AFTER_HOUR` constraint whose allowed hour (default 21) is
strictly exceeded by the extracted hour. -/
def meetingHit (req_hour : Option ℕ) (c : NormConstraint) : Bool :=
  decide (c.type = some NO_MEETINGS_AFTER_HOUR) &&
    (match req_hour with
     | some r => decide ((c.params.hour.getD 21 : ℤ) < (r : ℤ))
     | none => false)

/-- The violation condition of check C for one constraint: a `BUDGET_CAP`
constraint with a strictly positive cap strictly below the extracted
amount. -/
def budgetHit (amt : Option ℚ) (c : NormConstraint) : Bool :=
  decide (c.type = some BUDGET_CAP) &&
    (match amt with
     | some a => decide (0 < c.params.max_amount.getD 0 ∧
                         c.params.max_amount.getD 0 < a)
     | none => false)

lemma meetingHit_iff (req_hour : Option ℕ) (c : NormConstraint) :
    meetingHit req_hour c = true ↔
      c.type = some NO_MEETINGS_AFTER_HOUR ∧
        ∃ r : ℕ, req_hour = some r ∧ (c.params.hour.getD 21 : ℤ) < (r : ℤ) := by
  cases req_hour <;> simp [meetingHit]

lemma budgetHit_iff (amt : Option ℚ) (c : NormConstraint) :
    budgetHit amt c = true ↔
      c.type = some BUDGET_CAP ∧
        ∃ a : ℚ, amt = some a ∧ 0 < c.params.max_amount.getD 0 ∧
          c.params.max_amount.getD 0 < a := by
  cases amt <;> simp [budgetHit]

lemma checkMeeting_eq (req_hour : Option ℕ) (ncs : List NormConstraint) :
    checkMeeting req_hour ncs =
      ((ncs.filter (meetingHit req_hour)).map
         (fun c => (c.id, meetingReason (req_hour.getD 0) (c.params.hour.getD 21))),
       (ncs.filter (meetingHit req_hour)).flatMap
         (fun c => alternativesForMeeting (c.params.hour.getD 21))) := by
  induction ncs with
  | nil => rfl
  | cons c rest ih =>
    by_cases ht : c.type = some NO_MEETINGS_AFTER_HOUR
    · cases hr : req_hour with
      | none =>
        subst hr; simp [checkMeeting, ih, meetingHit, ht, List.filter_cons]
      | some r =>
        subst hr
        by_cases hcmp : (c.params.hour.getD 21 : ℤ) < (r : ℤ)
        · simp [checkMeeting, ih, meetingHit, ht, hcmp, List.filter_cons]
        · simp [checkMeeting, ih, meetingHit, ht, hcmp, List.filter_cons]
    · simp [checkMeeting, ih, meetingHit, ht, List.filter_cons]

lemma checkSharing_eq (ncs : List NormConstraint) :
    checkSharing ncs =
      ((ncs.filter (fun c => decide (c.type = some NO_SHARING_WITH_EXTERNALS))).map
         (fun c => (c.id, sharingReason)),
       (ncs.filter (fun c => decide (c.type = some NO_SHARING_WITH_EXTERNALS))).flatMap
         (fun _ => alternativesForSharing)) := by
  induction ncs with
  | nil => rfl
  | cons c rest ih =>
    by_cases ht : c.type = some NO_SHARING_WITH_EXTERNALS <;>
      simp [checkSharing, ih, ht, List.filter_cons]

lemma checkBudget_eq (amt : Option ℚ) (ncs : List NormConstraint) :
    checkBudget amt ncs =
      ((ncs.filter (budgetHit amt)).map
         (fun c => (c.id, budgetReason (amt.getD 0) (c.params.max_amount.getD 0))),
       (ncs.filter (budgetHit amt)).flatMap
         (fun c => alternativesForBudget (c.params.max_amount.getD 0))) := by
  induction ncs with
  | nil => rfl
  | cons c rest ih =>
    by_cases ht : c.type = some BUDGET_CAP
    · cases ha : amt with
      | none =>
        subst ha; simp [checkBudget, ih, budgetHit, ht, List.filter_cons]
      | some a =>
        subst ha
        by_cases hcmp : 0 < c.params.max_amount.getD 0 ∧ c.params.max_amount.getD 0 < a
        · simp [checkBudget, ih, budgetHit, ht, hcmp, List.filter_cons]
        · simp [checkBudget, ih, budgetHit, ht, hcmp, List.filter_cons]
    · simp [checkBudget, ih, budgetHit, ht, List.filter_cons]

lemma runChecks_meeting (req : String) (ncs : List NormConstraint) :
    runChecks req SCHEDULE_MEETING ncs =
      checkMeeting (orch_parse_time_to_hour req.toList) ncs := by
  have h1 : SCHEDULE_MEETING ≠ SHARE_DATA := by decide
  have h2 : SCHEDULE_MEETING ≠ SPEND_MONEY := by decide
  simp [runChecks, h1, h2]

lemma runChecks_share (req : String) (ncs : List NormConstraint) :
    runChecks req SHARE_DATA ncs =
      (if mentions_external_party req then checkSharing ncs else ([], [])) := by
  have h1 : SHARE_DATA ≠ SCHEDULE_MEETING := by decide
  have h2 : SHARE_DATA ≠ SPEND_MONEY := by decide
  by_cases hm : mentions_external_party req <;> simp [runChecks, h1, h2, hm]

lemma runChecks_spend (req : String) (ncs : List NormConstraint) :
    runChecks req SPEND_MONEY ncs =
      checkBudget (orch_parse_amount req.toList) ncs := by
  have h1 : SPEND_MONEY ≠ SCHEDULE_MEETING := by decide
  have h2 : SPEND_MONEY ≠ SHARE_DATA := by decide
  simp [runChecks, h1, h2]

lemma evaluate_request_def (aid req : String) (cs : List RawConstraint) :
    evaluate_request aid req cs =
      (if (runChecks req (classify_action req) (cs.map normalizeConstraint)).1 = [] then
        { ok := true
          action_id := aid
          action_type := classify_action req
          message := "Approved: no constraint violations detected."
          violations := []
          alternatives := [] }
      else
        { ok := false
          action_id := aid
          action_type := classify_action req
          message := "Blocked: request violates one or more persistent constraints."
          violations := (runChecks req (classify_action req) (cs.map normalizeConstraint)).1
          alternatives :=
            (dedupFirst
              (runChecks req (classify_action req) (cs.map normalizeConstraint)).2).take 5 }) :=
  rfl

lemma evaluate_request_violations (aid req : String) (cs : List RawConstraint) :
    (evaluate_request aid req cs).violations =
      (runChecks req (classify_action req) (cs.map normalizeConstraint)).1 := by
  rw [evaluate_request_def]
  split
  · next h => exact h.symm
  · rfl

lemma evaluate_request_ok (aid req : String) (cs : List RawConstraint) :
    (evaluate_request aid req cs).ok = true ↔
      (runChecks req (classify_action req) (cs.map normalizeConstraint)).1 = [] := by
  rw [evaluate_request_def]
  split
  · next h => simpa using h
  · next h => simpa using h

lemma evaluate_request_alternatives (aid req : String) (cs : List RawConstraint) :
    (evaluate_request aid req cs).alternatives =
      (if (runChecks req (classify_action req) (cs.map normalizeConstraint)).1 = [] then []
       else (dedupFirst
              (runChecks req (classify_action req) (cs.map normalizeConstraint)).2).take 5) := by
  rw [evaluate_request_def]
  by_cases h : (runChecks req (classify_action req) (cs.map normalizeConstraint)).1 = [] <;>
    simp [h]

/-! ## Deduplication: properties and first-seen characterization -/

/-- Deduplication by exact string equality keeping the first occurrence, as
the spec words it: keep the head, drop its later copies, recurse. -/
def firstSeenDedup : List String → List String
  | [] => []
  | a :: l => a :: firstSeenDedup (l.filter (fun b => b != a))
  termination_by l => l.length
  decreasing_by
    simp only [List.length_cons]
    exact Nat.lt_succ_of_le (List.length_filter_le _ _)

lemma dedupAux_sublist (l : List String) :
    ∀ seen, (dedupAux seen l).Sublist l := by
  induction l with
  | nil => intro seen; simp [dedupAux]
  | cons a rest ih =>
    intro seen
    simp only [dedupAux]
    split
    · exact (ih seen).trans (List.sublist_cons_self a rest)
    · exact (ih (a :: seen)).cons₂ a

lemma mem_dedupAux_not_seen (l : List String) :
    ∀ seen x, x ∈ dedupAux seen l → seen.contains x = false := by
  induction l with
  | nil => intro seen x h; simp [dedupAux] at h
  | cons a rest ih =>
    intro seen x h
    simp only [dedupAux] at h
    by_cases hc : seen.contains a
    · rw [if_pos hc] at h
      exact ih seen x h
    · rw [if_neg hc] at h
      rcases List.mem_cons.mp h with rfl | hx
      · simpa using hc
      · have h2 := ih (a :: seen) x hx
        simp only [List.contains_cons, Bool.or_eq_false_iff] at h2
        exact h2.2

lemma dedupAux_nodup (l : List String) : ∀ seen, (dedupAux seen l).Nodup := by
  induction l with
  | nil => intro seen; simp [dedupAux]
  | cons a rest ih =>
    intro seen
    simp only [dedupAux]
    split
    · exact ih seen
    · refine List.nodup_cons.mpr ⟨?_, ih (a :: seen)⟩
      intro hmem
      have h2 := mem_dedupAux_not_seen rest (a :: seen) a hmem
      simp [List.contains_cons] at h2

lemma dedupAux_eq_firstSeen (l : List String) :
    ∀ seen, dedupAux seen l =
      firstSeenDedup (l.filter (fun b => !seen.contains b)) := by
  induction l with
  | nil => intro seen; simp [dedupAux, firstSeenDedup]
  | cons a rest ih =>
    intro seen
    cases hc : seen.contains a with
    | true =>
      have hpa : ¬ ((!seen.contains a) = true) := by rw [hc]; simp
      rw [dedupAux, if_pos hc, List.filter_cons, if_neg hpa]
      exact ih seen
    | false =>
      have hna : ¬ (seen.contains a = true) := by rw [hc]; simp
      have hpa : (!seen.contains a) = true := by rw [hc]; rfl
      rw [dedupAux, if_neg hna, List.filter_cons, if_pos hpa,
          firstSeenDedup, ih (a :: seen)]
      congr 2
      rw [List.filter_filter]
      apply List.filter_congr
      intro b _
      by_cases hba : b = a <;> by_cases hcb : b ∈ seen <;> simp [hba, hcb]

lemma dedupFirst_eq_firstSeen (l : List String) :
    dedupFirst l = firstSeenDedup l := by
  rw [dedupFirst, dedupAux_eq_firstSeen]
  congr 1
  apply List.filter_eq_self.mpr
  intro b _
  simp [List.contains]

lemma dedupFirst_nodup (l : List String) : (dedupFirst l).Nodup :=
  dedupAux_nodup l []

lemma dedupFirst_sublist (l : List String) : (dedupFirst l).Sublist l :=
  dedupAux_sublist l []

/-! ## Claim theorems -/

/-- **C5** (code bug).  The action-evaluation hour extractor does recognize
meridiem mentions (converted to 0–23) and `HH:MM` mentions, and returns
nothing for unmatched text or out-of-range hours; but its bare 24-hour
pattern `\b(\d{1,2})(?::\d{2})\b` requires the minutes, so a request whose
only time mention is a bare in-range hour token (`21`) yields no hour —
contrary to the claim and to the source's own `# 21:00 or 21` comment. -/
theorem claim5_bare_hour_extractor :
    orch_parse_time_to_hour (String.toList "schedule a call at 21") = none ∧
    orch_parse_time_to_hour (String.toList "schedule a call at 21:00") =
      some 21 ∧
    orch_parse_time_to_hour (String.toList "schedule a call at 10pm") =
      some 22 ∧
    orch_parse_time_to_hour (String.toList "10:30 p.m.") = some 22 ∧
    orch_parse_time_to_hour (String.toList "12am") = some 0 ∧
    orch_parse_time_to_hour (String.toList "at 25:00") = none ∧
    orch_parse_time_to_hour (String.toList "no time here") = none :=
  ⟨rfl, rfl, rfl, rfl, rfl, rfl, rfl⟩

lemma bool_ne_true {b : Bool} (h : b = false) : ¬ (b = true) := by
  rw [h]; exact Bool.false_ne_true

/-- **C6.**  `classify_action` applies its rules in the fixed order
meeting → share∧data → spend∨`$` → `UNKNOWN`, so any utterance containing
meeting vocabulary — in particular one that also contains sharing
vocabulary — classifies as `SCHEDULE_MEETING`; the embedded function is
pure, matching the no-side-effects part of the claim. -/
theorem claim6_classify_order :
    (∀ req : String, hasAnyWord (normalize req.toList) meetingWords = true →
        classify_action req = SCHEDULE_MEETING) ∧
    (∀ req : String, hasAnyWord (normalize req.toList) meetingWords = false →
        hasAnyWord (normalize req.toList) shareVerbs = true →
        hasAnyWord (normalize req.toList) dataNouns = true →
        classify_action req = SHARE_DATA) ∧
    (∀ req : String, hasAnyWord (normalize req.toList) meetingWords = false →
        (hasAnyWord (normalize req.toList) shareVerbs &&
           hasAnyWord (normalize req.toList) dataNouns) = false →
        (hasAnyWord (normalize req.toList) spendWords ||
           hasSub (normalize req.toList) "$") = true →
        classify_action req = SPEND_MONEY) ∧
    (∀ req : String, hasAnyWord (normalize req.toList) meetingWords = false →
        (hasAnyWord (normalize req.toList) shareVerbs &&
           hasAnyWord (normalize req.toList) dataNouns) = false →
        (hasAnyWord (normalize req.toList) spendWords ||
           hasSub (normalize req.toList) "$") = false →
        classify_action req = UNKNOWN) ∧
    classify_action "schedule a call and share the dataset" =
      SCHEDULE_MEETING := by
  refine ⟨fun req h1 => ?_, fun req h1 h2 h3 => ?_, fun req h1 h2 h3 => ?_,
    fun req h1 h2 h3 => ?_, by decide⟩
  · simp only [classify_action]
    rw [if_pos h1]
  · simp only [classify_action]
    rw [if_neg (bool_ne_true h1), if_pos (by rw [h2, h3]; rfl)]
  · simp only [classify_action]
    rw [if_neg (bool_ne_true h1), if_neg (bool_ne_true h2), if_pos h3]
  · simp only [classify_action]
    rw [if_neg (bool_ne_true h1), if_neg (bool_ne_true h2),
        if_neg (bool_ne_true h3)]

/-- Witness for C6 at a both-vocabulary utterance. -/
theorem claim6_classify_order_witness :
    hasAnyWord (normalize (String.toList "schedule a call and share the dataset"))
      meetingWords = true ∧
    classify_action "schedule a call and share the dataset" =
      SCHEDULE_MEETING :=
  ⟨by decide,
   claim6_classify_order.1 "schedule a call and share the dataset" (by decide)⟩

/-- **C9.**  In constraint parsing, `after Hpm` maps to `H+12` for `H ≠ 12`
(shown for `H = 1..11`), `after 12pm` to 12 and `after 12am` to 0; when both
an after-qualified meridiem time and an after-qualified bare time occur, the
meridiem pattern is tried first (`after 5 after 9pm` gives 21, not 5); and a
derived hour outside 0–23 is rejected rather than returned (`after 13pm`
derives 25 and yields nothing, `after 25:00` yields nothing). -/
theorem claim9_policy_meridiem_conversion :
    (∀ i : Fin 11,
      policy_parse_time_to_hour
          (String.toList ("after " ++ toString (i.val + 1) ++ "pm")) =
        some (i.val + 13)) ∧
    policy_parse_time_to_hour (String.toList "after 12pm") = some 12 ∧
    policy_parse_time_to_hour (String.toList "after 12am") = some 0 ∧
    policy_parse_time_to_hour (String.toList "after 5 after 9pm") = some 21 ∧
    policy_parse_time_to_hour (String.toList "after 13pm") = none ∧
    policy_parse_time_to_hour (String.toList "after 25:00") = none :=
  ⟨by decide, rfl, rfl, rfl, rfl, rfl⟩

/-- **C1.**  For `SCHEDULE_MEETING` requests, `evaluate_request` records a
violation for exactly the `NO_MEETINGS_AFTER_HOUR` constraints whose allowed
hour is strictly below an extracted hour (`meetingHit`, spelled out by the
second conjunct), with a message stating both hours; the appended
suggestions include a time equal to the lesser of the allowed hour and 20;
with `hour=21`, `"schedule a call at 10pm"` is blocked with exactly one
violation and `"schedule a call at 8pm"` is approved. -/
theorem claim1_meeting_rule :
    (∀ (aid req : String) (cs : List RawConstraint),
      classify_action req = SCHEDULE_MEETING →
      (evaluate_request aid req cs).violations =
        ((cs.map normalizeConstraint).filter
            (meetingHit (orch_parse_time_to_hour req.toList))).map
          (fun c => (c.id,
            meetingReason ((orch_parse_time_to_hour req.toList).getD 0)
              (c.params.hour.getD 21)))) ∧
    (∀ (rh : Option ℕ) (c : NormConstraint),
      meetingHit rh c = true ↔
        c.type = some NO_MEETINGS_AFTER_HOUR ∧
          ∃ r : ℕ, rh = some r ∧ (c.params.hour.getD 21 : ℤ) < (r : ℤ)) ∧
    meetingReason 22 21 =
      "Requested meeting at 22:00 exceeds allowed end hour 21:00" ∧
    (∀ h : ℤ,
      s!"Schedule it at {min h 20}:00 (8pm) instead of after {h}:00." ∈
        alternativesForMeeting h) ∧
    (∀ aid : String,
      (evaluate_request aid "schedule a call at 10pm"
          [{ id := some "c-1", type := some NO_MEETINGS_AFTER_HOUR,
             params := some { hour := some 21 } }]).ok = false ∧
      (evaluate_request aid "schedule a call at 10pm"
          [{ id := some "c-1", type := some NO_MEETINGS_AFTER_HOUR,
             params := some { hour := some 21 } }]).violations =
        [(some "c-1",
          "Requested meeting at 22:00 exceeds allowed end hour 21:00")] ∧
      (evaluate_request aid "schedule a call at 8pm"
          [{ id := some "c-1", type := some NO_MEETINGS_AFTER_HOUR,
             params := some { hour := some 21 } }]).ok = true) := by
  refine ⟨?_, meetingHit_iff, rfl, ?_, fun aid => ⟨rfl, rfl, rfl⟩⟩
  · intro aid req cs hcl
    rw [evaluate_request_violations, hcl, runChecks_meeting, checkMeeting_eq]
  · intro h
    simp [alternativesForMeeting]

/-- Witness for C1 at the concrete blocked example. -/
theorem claim1_meeting_rule_witness :
    classify_action "schedule a call at 10pm" = SCHEDULE_MEETING ∧
    (evaluate_request "a-1" "schedule a call at 10pm"
        [{ id := some "c-1", type := some NO_MEETINGS_AFTER_HOUR,
           params := some { hour := some 21 } }]).violations =
      (([{ id := some "c-1", type := some NO_MEETINGS_AFTER_HOUR,
           params := some { hour := some 21 } }].map
            normalizeConstraint).filter
          (meetingHit (orch_parse_time_to_hour
            (String.toList "schedule a call at 10pm")))).map
        (fun c => (c.id,
          meetingReason
            ((orch_parse_time_to_hour
              (String.toList "schedule a call at 10pm")).getD 0)
            (c.params.hour.getD 21))) :=
  ⟨by decide,
   claim1_meeting_rule.1 "a-1" "schedule a call at 10pm" _ (by decide)⟩

/-- **C2.**  For `SPEND_MONEY` requests, `evaluate_request` records a
violation for exactly the `BUDGET_CAP` constraints with a strictly positive
cap strictly exceeded by the amount extracted by the `$`-only extractor
(`budgetHit`, spelled out by the second conjunct), with a message stating
both amounts; with `max_amount=1000`, `"buy a license for $1500"` is blocked
referencing 1500 and 1000 and `"buy a license for $500"` is approved. -/
theorem claim2_budget_rule :
    (∀ (aid req : String) (cs : List RawConstraint),
      classify_action req = SPEND_MONEY →
      (evaluate_request aid req cs).violations =
        ((cs.map normalizeConstraint).filter
            (budgetHit (orch_parse_amount req.toList))).map
          (fun c => (c.id,
            budgetReason ((orch_parse_amount req.toList).getD 0)
              (c.params.max_amount.getD 0)))) ∧
    (∀ (amt : Option ℚ) (c : NormConstraint),
      budgetHit amt c = true ↔
        c.type = some BUDGET_CAP ∧
          ∃ a : ℚ, amt = some a ∧ 0 < c.params.max_amount.getD 0 ∧
            c.params.max_amount.getD 0 < a) ∧
    budgetReason 1500 1000 =
      "Requested spend $1500.00 exceeds budget cap $1000.00" ∧
    (∀ aid : String,
      (evaluate_request aid "buy a license for $1500"
          [{ id := some "c-3", type := some BUDGET_CAP,
             params := some { max_amount := some 1000 } }]).ok = false ∧
      (evaluate_request aid "buy a license for $1500"
          [{ id := some "c-3", type := some BUDGET_CAP,
             params := some { max_amount := some 1000 } }]).violations =
        [(some "c-3",
          "Requested spend $1500.00 exceeds budget cap $1000.00")] ∧
      (evaluate_request aid "buy a license for $500"
          [{ id := some "c-3", type := some BUDGET_CAP,
             params := some { max_amount := some 1000 } }]).ok = true) := by
  refine ⟨?_, budgetHit_iff, by decide, fun aid => ⟨rfl, rfl, rfl⟩⟩
  intro aid req cs hcl
  rw [evaluate_request_violations, hcl, runChecks_spend, checkBudget_eq]

/-- Witness for C2 at the concrete blocked example. -/
theorem claim2_budget_rule_witness :
    classify_action "buy a license for $1500" = SPEND_MONEY ∧
    (evaluate_request "a-1" "buy a license for $1500"
        [{ id := some "c-3", type := some BUDGET_CAP,
           params := some { max_amount := some 1000 } }]).violations =
      (([{ id := some "c-3", type := some BUDGET_CAP,
           params := some { max_amount := some 1000 } }].map
            normalizeConstraint).filter
          (budgetHit (orch_parse_amount
            (String.toList "buy a license for $1500")))).map
        (fun c => (c.id,
          budgetReason
            ((orch_parse_amount
              (String.toList "buy a license for $1500")).getD 0)
            (c.params.max_amount.getD 0))) :=
  ⟨by decide,
   claim2_budget_rule.1 "a-1" "buy a license for $1500" _ (by decide)⟩

/-- **C3.**  For `SHARE_DATA` requests, if the request mentions any
external-party keyword, every `NO_SHARING_WITH_EXTERNALS` constraint on file
is violated — the rule never reads `banned_party` (the right-hand side below
ignores `params`) — and with no external-party keyword there are no sharing
violations; `"export the customer dataset to our contractor"` is blocked
(even against a constraint naming a different party) and
`"export the customer dataset internally"` is approved. -/
theorem claim3_sharing_rule :
    (∀ (aid req : String) (cs : List RawConstraint),
      classify_action req = SHARE_DATA →
      (evaluate_request aid req cs).violations =
        (if mentions_external_party req then
          ((cs.map normalizeConstraint).filter
              (fun c => decide (c.type = some NO_SHARING_WITH_EXTERNALS))).map
            (fun c => (c.id, sharingReason))
         else [])) ∧
    (∀ aid : String,
      (evaluate_request aid "export the customer dataset to our contractor"
          [{ id := some "c-4", type := some NO_SHARING_WITH_EXTERNALS,
             params := some { banned_party := some "some other party" } }]).ok
        = false ∧
      (evaluate_request aid "export the customer dataset to our contractor"
          [{ id := some "c-4", type := some NO_SHARING_WITH_EXTERNALS,
             params := some { banned_party := some "some other party" } }]).violations
        = [(some "c-4",
            "Request involves external/contractor sharing, which is prohibited")] ∧
      (evaluate_request aid "export the customer dataset internally"
          [{ id := some "c-4", type := some NO_SHARING_WITH_EXTERNALS,
             params := some { banned_party := some "contractor" } }]).ok
        = true) := by
  refine ⟨?_, fun aid => ⟨rfl, rfl, rfl⟩⟩
  intro aid req cs hcl
  rw [evaluate_request_violations, hcl, runChecks_share]
  by_cases hm : mentions_external_party req
  · rw [if_pos hm, if_pos hm, checkSharing_eq]
  · rw [if_neg hm, if_neg hm]

/-- Witness for C3 at the concrete blocked example. -/
theorem claim3_sharing_rule_witness :
    classify_action "export the customer dataset to our contractor" =
      SHARE_DATA ∧
    (evaluate_request "a-1" "export the customer dataset to our contractor"
        [{ id := some "c-4", type := some NO_SHARING_WITH_EXTERNALS,
           params := some { banned_party := some "some other party" } }]).violations =
      (if mentions_external_party "export the customer dataset to our contractor" then
        (([{ id := some "c-4", type := some NO_SHARING_WITH_EXTERNALS,
             params := some { banned_party := some "some other party" } }].map
              normalizeConstraint).filter
            (fun c => decide (c.type = some NO_SHARING_WITH_EXTERNALS))).map
          (fun c => (c.id, sharingReason))
       else []) :=
  ⟨by decide,
   claim3_sharing_rule.1 "a-1" "export the customer dataset to our contractor"
     _ (by decide)⟩

/-- **C7.**  For every decision of `evaluate_request`, the alternatives list
has at most 5 entries, has no duplicate (exact string equality), is a
sublist (order-preserving) of the accumulated suggestion list, and equals —
when the decision is blocked — the first 5 entries of the first-seen
deduplication of that accumulated list. -/
theorem claim7_alternatives_dedup_cap :
    ∀ (aid req : String) (cs : List RawConstraint),
      (evaluate_request aid req cs).alternatives.length ≤ 5 ∧
      (evaluate_request aid req cs).alternatives.Nodup ∧
      (evaluate_request aid req cs).alternatives.Sublist
        (runChecks req (classify_action req) (cs.map normalizeConstraint)).2 ∧
      (evaluate_request aid req cs).alternatives =
        (if (runChecks req (classify_action req)
              (cs.map normalizeConstraint)).1 = []
         then []
         else (firstSeenDedup
            (runChecks req (classify_action req)
              (cs.map normalizeConstraint)).2).take 5) := by
  intro aid req cs
  rw [evaluate_request_alternatives]
  by_cases h : (runChecks req (classify_action req)
      (cs.map normalizeConstraint)).1 = []
  · rw [if_pos h]
    exact ⟨by simp, List.nodup_nil, List.nil_sublist _, by rw [if_pos h]⟩
  · rw [if_neg h]
    refine ⟨?_, ?_, ?_, by rw [if_neg h, dedupFirst_eq_firstSeen]⟩
    · exact le_trans (List.length_take_le _ _) (le_refl 5)
    · exact List.Nodup.sublist (List.take_sublist _ _) (dedupFirst_nodup _)
    · exact (List.take_sublist _ _).trans (dedupFirst_sublist _)

/-- **C8.**  `evaluate_request` is deterministic: two runs on the same
request and constraint list (the graph store contributing only the echo of
the recorded pairs) agree on the ok flag, action type, message, violations
and the ordered alternatives, differing at most in the fresh action id. -/
theorem claim8_deterministic :
    ∀ (aid1 aid2 req : String) (cs : List RawConstraint),
      (evaluate_request aid1 req cs).ok = (evaluate_request aid2 req cs).ok ∧
      (evaluate_request aid1 req cs).action_type =
        (evaluate_request aid2 req cs).action_type ∧
      (evaluate_request aid1 req cs).message =
        (evaluate_request aid2 req cs).message ∧
      (evaluate_request aid1 req cs).violations =
        (evaluate_request aid2 req cs).violations ∧
      (evaluate_request aid1 req cs).alternatives =
        (evaluate_request aid2 req cs).alternatives := by
  intro aid1 aid2 req cs
  rw [evaluate_request_def aid1, evaluate_request_def aid2]
  by_cases h : (runChecks req (classify_action req)
      (cs.map normalizeConstraint)).1 = [] <;>
    simp [h]

lemma policyBareFallback_le (t : List Char) (h : ℕ) :
    policyBareFallback t = some h → h ≤ 23 := by
  unfold policyBareFallback
  cases hb : searchP matchAfterBareAt none t with
  | none => intro hh; cases hh
  | some h2 =>
    dsimp only
    by_cases hle : h2 ≤ 23
    · rw [if_pos hle]
      intro hh
      cases hh
      exact hle
    · rw [if_neg hle]
      intro hh
      cases hh

/-- Both blocks of the policy hour extractor range-check the derived hour,
so every returned hour is at most 23 (the lower bound holds by `ℕ`). -/
lemma policy_parse_time_le (text : List Char) (h : ℕ) :
    policy_parse_time_to_hour text = some h → h ≤ 23 := by
  unfold policy_parse_time_to_hour
  dsimp only
  cases hm : searchP matchAfterMeridiemAt none (normalize text) with
  | none => exact policyBareFallback_le _ h
  | some v =>
    obtain ⟨hr, pm⟩ := v
    dsimp only
    by_cases hle : meridiemAdjust hr pm ≤ 23
    · rw [if_pos hle]
      intro hh
      cases hh
      exact hle
    · rw [if_neg hle]
      exact policyBareFallback_le _ h

/-- **C4.**  `parse_constraint` returns exactly one of a constraint and an
error (first conjunct); every constraint it returns has a type in the
closed three-element set with the required, well-formed parameter present
(hour an integer in 0–23, amount a rational, party a string — second
conjunct); and on text matching none of the three trigger families it fails
with the unrecognized-constraint error, whose text lists the three
supported example phrasings (third and fourth conjuncts). -/
theorem claim4_parse_constraint_shape :
    (∀ hex8 txt : String,
      ((parse_constraint hex8 txt).1.isSome = true ∧
        (parse_constraint hex8 txt).2 = none) ∨
      ((parse_constraint hex8 txt).1 = none ∧
        (parse_constraint hex8 txt).2.isSome = true)) ∧
    (∀ (hex8 txt : String) (c : ParsedConstraint),
      (parse_constraint hex8 txt).1 = some c →
        (c.type = NO_MEETINGS_AFTER_HOUR ∧
          ∃ h : ℤ, c.params.hour = some h ∧ 0 ≤ h ∧ h ≤ 23) ∨
        (c.type = BUDGET_CAP ∧ ∃ a : ℚ, c.params.max_amount = some a) ∨
        (c.type = NO_SHARING_WITH_EXTERNALS ∧
          ∃ p : String, c.params.banned_party = some p)) ∧
    (∀ hex8 txt : String,
      meetingTrigger (normalize txt.toList) = false →
      budgetTrigger (normalize txt.toList) = false →
      sharingTrigger (normalize txt.toList) = false →
      parse_constraint hex8 txt = (none, some unrecognizedMsg)) ∧
    unrecognizedMsg =
      "Unrecognized constraint. Supported examples:\n" ++
      "1) No meetings after 9pm\n" ++
      "2) Budget cap $1000\n" ++
      "3) Never share datasets with external contractors" := by
  refine ⟨?_, ?_, ?_, rfl⟩
  · intro hex8 txt
    simp only [parse_constraint]
    by_cases h1 : meetingTrigger (normalize txt.toList) = true
    · rw [if_pos h1]
      cases hp : policy_parse_time_to_hour (normalize txt.toList) with
      | none => right; exact ⟨rfl, rfl⟩
      | some hr => left; exact ⟨rfl, rfl⟩
    · rw [if_neg h1]
      by_cases h2 : budgetTrigger (normalize txt.toList) = true
      · rw [if_pos h2]
        cases hp : policy_parse_money_amount (normalize txt.toList) with
        | none => right; exact ⟨rfl, rfl⟩
        | some amt => left; exact ⟨rfl, rfl⟩
      · rw [if_neg h2]
        by_cases h3 : sharingTrigger (normalize txt.toList) = true
        · rw [if_pos h3]
          left; exact ⟨rfl, rfl⟩
        · rw [if_neg h3]
          right; exact ⟨rfl, rfl⟩
  · intro hex8 txt c
    simp only [parse_constraint]
    by_cases h1 : meetingTrigger (normalize txt.toList) = true
    · rw [if_pos h1]
      cases hp : policy_parse_time_to_hour (normalize txt.toList) with
      | none => intro hc; cases hc
      | some hr =>
        intro hc
        cases hc
        left
        refine ⟨rfl, (hr : ℤ), rfl, Int.ofNat_nonneg hr, ?_⟩
        exact_mod_cast policy_parse_time_le _ hr hp
    · rw [if_neg h1]
      by_cases h2 : budgetTrigger (normalize txt.toList) = true
      · rw [if_pos h2]
        cases hp : policy_parse_money_amount (normalize txt.toList) with
        | none => intro hc; cases hc
        | some amt =>
          intro hc
          cases hc
          right; left
          exact ⟨rfl, amt, rfl⟩
      · rw [if_neg h2]
        by_cases h3 : sharingTrigger (normalize txt.toList) = true
        · rw [if_pos h3]
          intro hc
          cases hc
          right; right
          exact ⟨rfl, _, rfl⟩
        · rw [if_neg h3]
          intro hc
          cases hc
  · intro hex8 txt h1 h2 h3
    simp only [parse_constraint]
    rw [if_neg (bool_ne_true h1), if_neg (bool_ne_true h2),
        if_neg (bool_ne_true h3)]

/-- Witness for C4: the unrecognized branch at `"hello"`. -/
theorem claim4_parse_constraint_shape_witness :
    meetingTrigger (normalize (String.toList "hello")) = false ∧
    budgetTrigger (normalize (String.toList "hello")) = false ∧
    sharingTrigger (normalize (String.toList "hello")) = false ∧
    parse_constraint "deadbeef" "hello" = (none, some unrecognizedMsg) :=
  ⟨by decide, by decide, by decide,
   claim4_parse_constraint_shape.2.2.1 "deadbeef" "hello"
     (by decide) (by decide) (by decide)⟩

/-- **C10.**  Missing constraint parameters are silently defaulted during
matching: a `NO_MEETINGS_AFTER_HOUR` constraint whose params lack `hour`
blocks exactly when the extracted hour exceeds the default 21, and a
`BUDGET_CAP` constraint whose params lack `max_amount` gets cap 0 and —
only strictly positive caps being enforced — never blocks any request.  The
last two conjuncts instantiate both at concrete requests. -/
theorem claim10_missing_param_defaults :
    (∀ (aid req cId : String) (p : Option Params) (r : ℕ),
      (p.getD {}).hour = none →
      classify_action req = SCHEDULE_MEETING →
      orch_parse_time_to_hour req.toList = some r →
      ((evaluate_request aid req
          [{ id := some cId, type := some NO_MEETINGS_AFTER_HOUR,
             params := p }]).ok = false ↔ (21 : ℤ) < (r : ℤ))) ∧
    (∀ (aid req cId : String) (p : Option Params),
      (p.getD {}).max_amount = none →
      (evaluate_request aid req
          [{ id := some cId, type := some BUDGET_CAP,
             params := p }]).ok = true) ∧
    (∀ aid : String,
      (evaluate_request aid "schedule a call at 10pm"
          [{ id := some "c-5", type := some NO_MEETINGS_AFTER_HOUR,
             params := some {} }]).ok = false) ∧
    (∀ aid : String,
      (evaluate_request aid "buy a license for $999999"
          [{ id := some "c-6", type := some BUDGET_CAP,
             params := some {} }]).ok = true) := by
  refine ⟨?_, ?_, fun aid => rfl, fun aid => rfl⟩
  · intro aid req cId p r hmiss hcl hr
    have hok := evaluate_request_ok aid req
      [{ id := some cId, type := some NO_MEETINGS_AFTER_HOUR, params := p }]
    rw [hcl, runChecks_meeting, hr] at hok
    simp only [List.map_cons, List.map_nil] at hok
    by_cases hlt : (21 : ℤ) < (r : ℤ)
    · have hchk : (checkMeeting (some r)
          [normalizeConstraint
            { id := some cId, type := some NO_MEETINGS_AFTER_HOUR,
              params := p }]).1 ≠ [] := by
        simp [checkMeeting, normalizeConstraint, hmiss, hlt]
      constructor
      · intro _
        exact hlt
      · intro _
        cases hokv : (evaluate_request aid req
            [{ id := some cId, type := some NO_MEETINGS_AFTER_HOUR,
               params := p }]).ok with
        | false => rfl
        | true => exact absurd (hok.mp hokv) hchk
    · have hchk : checkMeeting (some r)
          [normalizeConstraint
            { id := some cId, type := some NO_MEETINGS_AFTER_HOUR,
              params := p }] = ([], []) := by
        simp [checkMeeting, normalizeConstraint, hmiss, hlt]
      constructor
      · intro hfalse
        have htrue : (evaluate_request aid req
            [{ id := some cId, type := some NO_MEETINGS_AFTER_HOUR,
               params := p }]).ok = true := hok.mpr (by rw [hchk])
        rw [hfalse] at htrue
        cases htrue
      · intro h21
        exact absurd h21 hlt
  · intro aid req cId p hmiss
    apply (evaluate_request_ok _ _ _).mpr
    simp only [List.map_cons, List.map_nil]
    have hne1 : (some BUDGET_CAP : Option String) ≠
        some NO_MEETINGS_AFTER_HOUR := by decide
    have hne2 : (some BUDGET_CAP : Option String) ≠
        some NO_SHARING_WITH_EXTERNALS := by decide
    have hm : ∀ rh, checkMeeting rh
        [normalizeConstraint
          { id := some cId, type := some BUDGET_CAP, params := p }] =
        ([], []) := by
      intro rh
      simp [checkMeeting, normalizeConstraint, hne1]
    have hs : checkSharing
        [normalizeConstraint
          { id := some cId, type := some BUDGET_CAP, params := p }] =
        ([], []) := by
      simp [checkSharing, normalizeConstraint, hne2]
    have hb : ∀ amt, checkBudget amt
        [normalizeConstraint
          { id := some cId, type := some BUDGET_CAP, params := p }] =
        ([], []) := by
      intro amt
      cases amt with
      | none => simp [checkBudget, normalizeConstraint]
      | some a => simp [checkBudget, normalizeConstraint, hmiss]
    simp [runChecks, hm, hs, hb]

/-- Witness for C10: the defaulted-hour rule applied at
`"schedule a call at 10pm"` (extracted hour 22 > default 21). -/
theorem claim10_missing_param_defaults_witness :
    (Option.getD (some ({} : Params)) {}).hour = none ∧
    classify_action "schedule a call at 10pm" = SCHEDULE_MEETING ∧
    orch_parse_time_to_hour (String.toList "schedule a call at 10pm") =
      some 22 ∧
    ((evaluate_request "a-1" "schedule a call at 10pm"
        [{ id := some "c-5", type := some NO_MEETINGS_AFTER_HOUR,
           params := some {} }]).ok = false ↔ (21 : ℤ) < ((22 : ℕ) : ℤ)) :=
  ⟨rfl, by decide, by decide,
   claim10_missing_param_defaults.1 "a-1" "schedule a call at 10pm" "c-5"
     (some {}) 22 rfl (by decide) (by decide)⟩

end MemoryFirewall


